import Mathlib

/-!
Verification of the record lifecycle and query engine of
`case/library_pro.py` (in-memory book-lending tracker).

The Python functions are shallowly embedded as pure Lean functions:
the shared mutable list of records becomes an explicit `List Book`
threaded through each operation, Python exceptions become an explicit
`PyExc` error component, and the ambient clock (`datetime.now()`)
becomes an explicit parameter.  Unicode behaviour of the Python
standard library (`unicodedata`, `str.lower`, `str.upper`) is modelled
by explicit per-character tables covering the character repertoire the
repository manipulates (ASCII plus the Turkish letters ı İ ü Ü ö Ö ç Ç
ş Ş ğ Ğ and circumflexed vowels).
-/

namespace LibraryPro

/-- The exception kinds that the embedded operations can surface.
`validationError`, `duplicateBookError` and `notFoundError` are the
library's own classes (library_pro.py lines 60-63); `valueError`
models Python's built-in `ValueError` (raised by
`datetime.strptime`); `reError` models `re.error` raised by
`re.compile` on a malformed pattern. -/
inductive PyExc where
  | validationError
  | duplicateBookError
  | notFoundError
  | valueError
  | reError
deriving DecidableEq, Repr

/-! ## Character-level model of the Python string operations -/

/-- Models `unicodedata.combining(ch) != 0`: true on the Combining
Diacritical Marks block U+0300–U+036F, which contains every mark
produced by `nfkdChar` below. -/
def combiningMark (c : Char) : Bool :=
  0x300 ≤ c.toNat && c.toNat ≤ 0x36F

/-- Models `unicodedata.normalize("NFKD", ·)` per character, for the
characters the repository manipulates.  In particular U+0130 `İ`
decomposes into `I` followed by U+0307 COMBINING DOT ABOVE; the
dotless `ı` (U+0131) has no decomposition.  Characters outside the
table are their own decomposition. -/
def nfkdChar (c : Char) : List Char :=
  match c with
  | 'İ' => ['I', '̇']
  | 'ü' => ['u', '̈']
  | 'Ü' => ['U', '̈']
  | 'ö' => ['o', '̈']
  | 'Ö' => ['O', '̈']
  | 'ç' => ['c', '̧']
  | 'Ç' => ['C', '̧']
  | 'ş' => ['s', '̧']
  | 'Ş' => ['S', '̧']
  | 'ğ' => ['g', '̆']
  | 'Ğ' => ['G', '̆']
  | 'â' => ['a', '̂']
  | 'Â' => ['A', '̂']
  | 'î' => ['i', '̂']
  | 'û' => ['u', '̂']
  | 'é' => ['e', '́']
  | c => [c]

/-- Models `str.maketrans({"I": "ı", "İ": "i"})` applied per character
(library_pro.py line 77). -/
def trMapChar (c : Char) : Char :=
  if c = 'I' then 'ı' else if c = 'İ' then 'i' else c

/-- Models Python `str.lower()` per character (a character may lower
to several characters: `İ`.lower() is `i` + COMBINING DOT ABOVE). -/
def pyLowerChar (c : Char) : List Char :=
  if c = 'İ' then ['i', '̇']
  else if 'A' ≤ c && c ≤ 'Z' then [Char.ofNat (c.toNat + 32)]
  else match c with
  | 'Ü' => ['ü']
  | 'Ö' => ['ö']
  | 'Ç' => ['ç']
  | 'Ş' => ['ş']
  | 'Ğ' => ['ğ']
  | 'Â' => ['â']
  | c => [c]

/-- Models Python `str.upper()` per character, for the characters fed
to it by `titlecase_tr` (the dotted `i`/dotless `ı` cases are handled
before `.upper()` is ever called there; note Python's `'ı'.upper()`
is `'I'`). -/
def pyUpperChar (c : Char) : Char :=
  if 'a' ≤ c && c ≤ 'z' then Char.ofNat (c.toNat - 32)
  else match c with
  | 'ü' => 'Ü'
  | 'ö' => 'Ö'
  | 'ç' => 'Ç'
  | 'ş' => 'Ş'
  | 'ğ' => 'Ğ'
  | 'ı' => 'I'
  | 'â' => 'Â'
  | c => c

def stripAccentsL (l : List Char) : List Char :=
  ((l.map nfkdChar).flatten).filter (fun c => !combiningMark c)

def trLowerL (l : List Char) : List Char :=
  ((l.map trMapChar).map pyLowerChar).flatten

def pyLowerL (l : List Char) : List Char :=
  (l.map pyLowerChar).flatten

/-- Python `str.strip()` on a character list: drop whitespace from
both ends. -/
def pyStripL (l : List Char) : List Char :=
  ((l.dropWhile Char.isWhitespace).reverse.dropWhile Char.isWhitespace).reverse

/-- Python `str.split()` (no separator): whitespace-delimited words,
empty words dropped.  `acc` holds the current word reversed. -/
def wordsAux : List Char → List Char → List (List Char)
  | [], acc => if acc.isEmpty then [] else [acc.reverse]
  | c :: rest, acc =>
    if c.isWhitespace then
      if acc.isEmpty then wordsAux rest [] else acc.reverse :: wordsAux rest []
    else wordsAux rest (c :: acc)

def wordsL (l : List Char) : List (List Char) := wordsAux l []

/-- Python `" ".join` on character lists. -/
def joinSpaceL : List (List Char) → List Char
  | [] => []
  | [w] => w
  | w :: ws => w ++ ' ' :: joinSpaceL ws

/-! ## The string-level normalization helpers of library_pro.py -/

/-- Function `strip_accents` (library_pro.py lines 79-81): NFKD decomposition,
then drop combining marks. -/
def strip_accents (s : String) : String := String.mk (stripAccentsL s.data)

/-- Function `tr_lower` (line 78): Turkish fold `I→ı`, `İ→i`, then `.lower()`. -/
def tr_lower (s : String) : String := String.mk (trLowerL s.data)

/-- Plain Python `str.lower()`. -/
def pyLowerStr (s : String) : String := String.mk (pyLowerL s.data)

/-- Python `str.strip()`. -/
def pyStrip (s : String) : String := String.mk (pyStripL s.data)

/-- Function `norm_key` (lines 82-84): `""` on a falsy argument (`None` or the
empty string), otherwise `tr_lower(strip_accents(s.strip()))`. -/
def norm_key (s : Option String) : String :=
  match s with
  | none => ""
  | some s => if s = "" then "" else tr_lower (strip_accents (pyStrip s))

/-- One word of `titlecase_tr`: special head character (`i→İ`,
`ı→I`, otherwise `.upper()`), then `tr_lower` of the remainder. -/
def capWordTr (w : List Char) : List Char :=
  match w with
  | [] => []
  | f :: rest =>
    (if f = 'i' then 'İ' else if f = 'ı' then 'I' else pyUpperChar f) :: trLowerL rest

/-- Function `titlecase_tr` (lines 85-93): split the stripped string into
whitespace-delimited words, capitalize each, join with single
spaces. -/
def titlecase_tr (s : String) : String :=
  String.mk (joinSpaceL ((wordsL (pyStripL s.data)).map capWordTr))

/-! ## Dates

`datetime.strptime(s, "%Y-%m-%d")` and date arithmetic via
`timedelta(days=n)`.  A date is a proleptic-Gregorian calendar day;
`rataDie` is exactly Python's `date.toordinal()` (day 1 =
0001-01-01). -/

structure Date where
  year : Nat
  month : Nat
  day : Nat
deriving DecidableEq, Repr

def isLeap (y : Nat) : Bool :=
  y % 4 == 0 && (y % 100 != 0 || y % 400 == 0)

def daysInMonth (y m : Nat) : Nat :=
  match m with
  | 2 => if isLeap y then 29 else 28
  | 4 => 30
  | 6 => 30
  | 9 => 30
  | 11 => 30
  | _ => 31

def daysBeforeMonth (y m : Nat) : Nat :=
  let l : Nat := if isLeap y then 1 else 0
  match m with
  | 1 => 0
  | 2 => 31
  | 3 => 59 + l
  | 4 => 90 + l
  | 5 => 120 + l
  | 6 => 151 + l
  | 7 => 181 + l
  | 8 => 212 + l
  | 9 => 243 + l
  | 10 => 273 + l
  | 11 => 304 + l
  | _ => 334 + l

def daysBeforeYear (y : Nat) : Nat :=
  365 * (y - 1) + ((y - 1) / 4 - (y - 1) / 100) + (y - 1) / 400

/-- Python's `date.toordinal()`. -/
def rataDie (d : Date) : Nat :=
  daysBeforeYear d.year + daysBeforeMonth d.year d.month + d.day

def Date.Valid (d : Date) : Prop :=
  1 ≤ d.year ∧ 1 ≤ d.month ∧ d.month ≤ 12 ∧ 1 ≤ d.day ∧
    d.day ≤ daysInMonth d.year d.month

/-- The calendar day after `d`. -/
def nextDay (d : Date) : Date :=
  if d.day < daysInMonth d.year d.month then ⟨d.year, d.month, d.day + 1⟩
  else if d.month < 12 then ⟨d.year, d.month + 1, 1⟩
  else ⟨d.year + 1, 1, 1⟩

/-- Computes `d + timedelta(days=n)`. -/
def addDays (d : Date) : Nat → Date
  | 0 => d
  | n + 1 => nextDay (addDays d n)

/-- Split a character list at `'-'` separators, keeping empty
fields (the semantics of `str.split("-")`). -/
def splitDash : List Char → List Char → List (List Char)
  | [], acc => [acc.reverse]
  | c :: rest, acc =>
    if c = '-' then acc.reverse :: splitDash rest []
    else splitDash rest (c :: acc)

def natOfDigits (l : List Char) : Nat :=
  l.foldl (fun n c => n * 10 + (c.toNat - 48)) 0

/-- One numeric field of the `%Y-%m-%d` format: non-empty, all ASCII
digits, at most `maxLen` of them. -/
def digitsField (l : List Char) (maxLen : Nat) : Bool :=
  !l.isEmpty && l.length ≤ maxLen && l.all Char.isDigit

/-- Models `datetime.strptime(s, "%Y-%m-%d")`: `none` when the parse
raises `ValueError`, otherwise the (always `Valid`) parsed date.
`%Y` accepts exactly 4 digits, `%m`/`%d` accept 1-2 digits; the field
values must form a real calendar date with year ≥ 1. -/
def parseDate (s : String) : Option Date :=
  match splitDash s.data [] with
  | [ys, ms, ds] =>
    if (ys.length == 4 && ys.all Char.isDigit) &&
        digitsField ms 2 && digitsField ds 2 then
      if 1 ≤ natOfDigits ys ∧ 1 ≤ natOfDigits ms ∧ natOfDigits ms ≤ 12 ∧
          1 ≤ natOfDigits ds ∧
          natOfDigits ds ≤ daysInMonth (natOfDigits ys) (natOfDigits ms) then
        some ⟨natOfDigits ys, natOfDigits ms, natOfDigits ds⟩
      else none
    else none
  | _ => none

/-- Decimal digits of `n`, most significant first (`fuel`-bounded
structural recursion; `fuel = n + 1` always suffices). -/
def natDigitsAux : Nat → Nat → List Char
  | 0, _ => []
  | fuel + 1, n =>
    if n = 0 then []
    else natDigitsAux fuel (n / 10) ++ [Char.ofNat (48 + n % 10)]

def natToStrL (n : Nat) : List Char :=
  if n = 0 then ['0'] else natDigitsAux (n + 1) n

def padNatL (n w : Nat) : List Char :=
  let s := natToStrL n
  List.replicate (w - s.length) '0' ++ s

/-- Python `strftime("%Y-%m-%d")`: zero-padded to 4-2-2 digits. -/
def dateToStr (d : Date) : String :=
  String.mk (padNatL d.year 4 ++ '-' :: (padNatL d.month 2 ++ '-' :: padNatL d.day 2))

/-- Models `datetime.now()`: its calendar date plus whether any time of day
has elapsed since midnight (all the code ever observes of the time
component is the comparison `due_midnight < now`). -/
structure PyNow where
  date : Date
  afterMidnight : Bool
deriving DecidableEq, Repr

/-- Models `strptime(due) < datetime.now()`: the parsed due date is a
midnight instant, so it is in the past iff its day is before today,
or equal to today with a nonzero time of day elapsed. -/
def dueLtNow (due : Date) (now : PyNow) : Bool :=
  rataDie due < rataDie now.date ||
    (rataDie due == rataDie now.date && now.afterMidnight)

/-! ## The record and the lifecycle operations -/

/-- One book record (the dict shape created by `add_book_pro`,
lines 167-173). -/
structure Book where
  id : Int
  title : String
  author : String
  available : Bool
  borrower : Option String
  due_date : Option String
  borrowed_at : Option String
  created_at : String
  waitlist : List String
deriving DecidableEq, Repr

def mkBook (nid : Int) (t a ca : String) : Book :=
  { id := nid, title := t, author := a, available := true, borrower := none,
    due_date := none, borrowed_at := none, created_at := ca, waitlist := [] }

/-- The `max_id` loop of `add_book_pro` (lines 160-165). -/
def maxIdFold (books : List Book) : Int :=
  books.foldl (fun m b => max m b.id) 0

/-- Function `add_book_pro` (lines 148-176).  The result pairs the returned
value (or raised exception) with the collection after the call;
`created_now` stands for `_now_iso()`. -/
def add_book_pro (books : List Book) (title author : String)
    (disallow_duplicates : Bool) (created_now : String) :
    Except PyExc Book × List Book :=
  let t := pyStrip title
  let a := pyStrip author
  if t = "" || a = "" then (Except.error PyExc.validationError, books)
  else
    let t2 := titlecase_tr t
    let a2 := titlecase_tr a
    if disallow_duplicates && books.any (fun b =>
        norm_key (some b.title) == norm_key (some t2) &&
        norm_key (some b.author) == norm_key (some a2)) then
      (Except.error PyExc.duplicateBookError, books)
    else
      let nid : Int := if books = [] then 1 else maxIdFold books + 1
      let nb := mkBook nid t2 a2 created_now
      (Except.ok nb, books ++ [nb])

/-- A Python value passed where `borrow_book_safe` expects an `int`
book id: either an actual `int`, or any non-`int` value (only its
non-`int`-ness is ever observed, by `isinstance(book_id, int)`). -/
inductive PyArg where
  | pyInt (n : Int)
  | nonInt (repr_ : String)
deriving DecidableEq, Repr

/-- The id-lookup loop of `borrow_book_safe` (lines 233-244). -/
def borrowScan (books : List Book) (bid : Int) (u : String) (days : Int)
    (today : Date) : Except PyExc Bool × List Book :=
  match books with
  | [] => (Except.error PyExc.notFoundError, [])
  | b :: rest =>
    if b.id = bid then
      if b.available then
        (Except.ok true,
          { b with
            available := false
            borrower := some (pyStrip u)
            borrowed_at := some (dateToStr today)
            due_date := some (dateToStr (addDays today days.toNat)) } :: rest)
      else (Except.ok false, b :: rest)
    else
      let r := borrowScan rest bid u days today
      (r.1, b :: r.2)

/-- Function `borrow_book_safe` (lines 229-244): the three validations, in
source order, then the id scan.  `today` stands for
`datetime.now()`'s date. -/
def borrow_book_safe (books : List Book) (book_id : PyArg) (username : String)
    (days : Int) (today : Date) : Except PyExc Bool × List Book :=
  match book_id with
  | PyArg.nonInt _ => (Except.error PyExc.validationError, books)
  | PyArg.pyInt bid =>
    if days ≤ 0 then (Except.error PyExc.validationError, books)
    else if pyStrip username = "" then (Except.error PyExc.validationError, books)
    else borrowScan books bid username days today

/-- Function `_assign_next_waiter` of the source (lines 257-266): pop the waitlist head, if
any, and re-borrow the record to that user for 14 days. -/
def assign_next_waiter (b : Book) (now : Date) : Book :=
  match b.waitlist with
  | [] => b
  | u :: rest =>
    { b with
      waitlist := rest
      available := false
      borrower := some u
      borrowed_at := some (dateToStr now)
      due_date := some (dateToStr (addDays now 14)) }

/-- The delay computation of `return_book_with_delay` (lines
271-277): `max(0, (now - due).days)` — which for a midnight `due`
equals the truncated subtraction of ordinals — when `due_date` is a
non-empty parseable string, 0 otherwise (the `ValueError` of a bad
parse is caught there and mapped to 0). -/
def returnDelay (b : Book) (now : Date) : Nat :=
  match b.due_date with
  | some s =>
    if s = "" then 0
    else match parseDate s with
      | some due => rataDie now - rataDie due
      | none => 0
  | none => 0

/-- The id-lookup loop of `return_book_with_delay` (lines 269-282). -/
def returnScan (books : List Book) (bid : Int) (now : Date) :
    Except PyExc (Bool × Nat) × List Book :=
  match books with
  | [] => (Except.error PyExc.notFoundError, [])
  | b :: rest =>
    if b.id = bid then
      let cleared := { b with
        available := true
        borrower := none
        due_date := none
        borrowed_at := none }
      (Except.ok (true, returnDelay b now), assign_next_waiter cleared now :: rest)
    else
      let r := returnScan rest bid now
      (r.1, b :: r.2)

/-- Function `return_book_with_delay` (lines 268-283). -/
def return_book_with_delay (books : List Book) (bid : Int) (now : Date) :
    Except PyExc (Bool × Nat) × List Book :=
  returnScan books bid now

/-- The id-lookup loop of `renew_book` (lines 302-315).  Note the
unguarded `datetime.strptime` at line 306: a non-empty unparseable
`due_date` surfaces a raw `ValueError`. -/
def renewScan (books : List Book) (bid : Int) (extra_days max_total_days : Int)
    (now : PyNow) : Except PyExc Bool × List Book :=
  match books with
  | [] => (Except.error PyExc.notFoundError, [])
  | b :: rest =>
    if b.id = bid then
      if b.available then (Except.ok false, b :: rest)
      else
        match b.due_date with
        | none => (Except.ok false, b :: rest)
        | some s =>
          if s = "" then (Except.ok false, b :: rest)
          else
            match parseDate s with
            | none => (Except.error PyExc.valueError, b :: rest)
            | some due =>
              if dueLtNow due now then (Except.ok false, b :: rest)
              else if 14 + extra_days > max_total_days then
                (Except.ok false, b :: rest)
              else
                (Except.ok true,
                  { b with
                    due_date :=
                      some (dateToStr (addDays due extra_days.toNat)) } :: rest)
    else
      let r := renewScan rest bid extra_days max_total_days now
      (r.1, b :: r.2)

/-- Function `renew_book` (lines 300-315): the `extra_days` validation, then
the id scan with the fixed `base_total = 14 + extra_days` cap. -/
def renew_book (books : List Book) (bid : Int) (extra_days max_total_days : Int)
    (now : PyNow) : Except PyExc Bool × List Book :=
  if extra_days ≤ 0 then (Except.error PyExc.validationError, books)
  else renewScan books bid extra_days max_total_days now

/-! ## Fees and the overdue scan -/

/-- Python `round(·, 2)` on the exact rational value (Python rounds the
nearest `float`; no claim below depends on the rounded value). -/
def roundq2 (q : ℚ) : ℚ := ((round (q * 100) : ℤ) : ℚ) / 100

/-- Function `calc_fee` (lines 285-292).  `now` stands for
`datetime.now().date()`, which the source consults directly for the
weekend exemption; weekday `k` of a date is `(toordinal - 1) % 7`
with Monday = 0. -/
def calc_fee (delay_days : Int) (base : ℚ) (weekend_free : Bool) (now : Date) : ℚ :=
  if delay_days ≤ 0 then 0
  else if !weekend_free then roundq2 (delay_days * base)
  else
    let feeDays := (List.range delay_days.toNat).countP
      (fun i => decide ((rataDie now - (i + 1) - 1) % 7 < 5))
    roundq2 (feeDays * base)

/-- The record loop of `list_overdue_stats` (lines 322-332),
accumulating the qualifying records in order and the fee total. -/
def overdueLoop (books : List Book) (today_dt : Date) (base : ℚ) (now : Date) :
    List Book × ℚ :=
  match books with
  | [] => ([], 0)
  | b :: rest =>
    let r := overdueLoop rest today_dt base now
    if b.available then r
    else match b.due_date with
      | none => r
      | some s =>
        if s = "" then r
        else match parseDate s with
          | none => r
          | some due =>
            if rataDie due < rataDie today_dt then
              (b :: r.1,
                calc_fee ((rataDie today_dt : Int) - (rataDie due : Int)) base true now + r.2)
            else r

/-- Function `list_overdue_stats` (lines 317-335).  `today = none` stands for
the `today is None` default (the current date); an unparseable
explicit `today` falls back to the current date. -/
def list_overdue_stats (books : List Book) (today : Option String) (base : ℚ)
    (now : Date) : List Book × Nat × ℚ :=
  let today_dt := match today with
    | none => now
    | some s => (parseDate s).getD now
  let r := overdueLoop books today_dt base now
  (r.1, r.1.length, roundq2 r.2)

/-! ## The search engine (`search_books_adv`, lines 178-227) -/

inductive SearchMode where
  | anyMode
  | allMode
  | prefixMode
deriving DecidableEq, Repr

inductive OrderBy where
  | byTitle
  | byAuthor
  | byDue
  | byCreated
deriving DecidableEq, Repr

/-- Parenthesis balance of a pattern (`depth` open groups so far). -/
def regexParenOk : List Char → Nat → Bool
  | [], depth => depth == 0
  | c :: rest, depth =>
    if c = '(' then regexParenOk rest (depth + 1)
    else if c = ')' then
      match depth with
      | 0 => false
      | d + 1 => regexParenOk rest d
    else regexParenOk rest depth

/-- Models the success of Python `re.compile` on the fragment of the
pattern language the development reasons about: a pattern with
unbalanced group parentheses raises `re.error` ("missing ),
unterminated subpattern" / "unbalanced parenthesis").  Other
syntactically invalid constructs are outside this model. -/
def regexWellFormed (s : String) : Bool := regexParenOk s.data 0

/-- Models `re.compile(pat, re.IGNORECASE)` (line 192): `re.error`
on a malformed pattern, otherwise a compiled pattern, represented by
its source text. -/
def reCompile (pat : String) : Except PyExc String :=
  if regexWellFormed pat then Except.ok pat else Except.error PyExc.reError

/-- Tests whether `p` is a prefix of the second list (Python `str.startswith`). -/
def prefixOfL : List Char → List Char → Bool
  | [], _ => true
  | _ :: _, [] => false
  | a :: as, b :: bs => a == b && prefixOfL as bs

/-- Tests whether `needle` occurs contiguously in `hay` (Python `tok in H`). -/
def subStrL (needle : List Char) : List Char → Bool
  | [] => needle.isEmpty
  | c :: rest => prefixOfL needle (c :: rest) || subStrL needle rest

/-- Models `pat.search(hay)` for metacharacter-free patterns
(case-insensitive substring search); metacharacter semantics are not
modelled, and no theorem below depends on a match result. -/
def reSearchCI (pat hay : String) : Bool :=
  subStrL (pyLowerL pat.data) (pyLowerL hay.data)

/-- The haystack `hay(b)` (lines 188-190): `title + " " + author`,
stripped, then `norm_key` or plain `.lower()`. -/
def hayOf (normalize : Bool) (b : Book) : String :=
  let s := pyStrip (b.title ++ " " ++ b.author)
  if normalize then norm_key (some s) else pyLowerStr s

/-- Stable insertion sort: `keepGoing x b` means the already-placed
`x` strictly precedes `b`, so scanning continues past it; on ties `b`
(the earlier element) is placed first, matching Python's stable
`list.sort`. -/
def insertStable (keepGoing : Book → Book → Bool) (b : Book) :
    List Book → List Book
  | [] => [b]
  | x :: xs =>
    if keepGoing x b then x :: insertStable keepGoing b xs else b :: x :: xs

def sortStable (keepGoing : Book → Book → Bool) (l : List Book) : List Book :=
  l.foldr (insertStable keepGoing) []

def keyDue (b : Book) : String :=
  match b.due_date with
  | some s => if s = "" then "9999-12-31" else s
  | none => "9999-12-31"

def keyCreated (b : Book) : String :=
  if b.created_at = "" then "0000-01-01" else b.created_at

/-- The `order_by` dispatch (lines 218-225): title and author keys
are plain-lowercased, `due` sorts missing dates last, `created` sorts
descending; all four sorts are stable. -/
def sortForOrder (o : OrderBy) (l : List Book) : List Book :=
  match o with
  | OrderBy.byAuthor =>
    sortStable (fun x b => decide (pyLowerStr x.author < pyLowerStr b.author ∨
      (pyLowerStr x.author = pyLowerStr b.author ∧ x.title < b.title))) l
  | OrderBy.byDue => sortStable (fun x b => decide (keyDue x < keyDue b)) l
  | OrderBy.byCreated => sortStable (fun x b => decide (keyCreated x > keyCreated b)) l
  | OrderBy.byTitle => sortStable (fun x b => decide (pyLowerStr x.title < pyLowerStr b.title)) l

/-- The token-mode match for one record (lines 195-205). -/
def tokenMatch (mode : SearchMode) (toks : List String) (normalize : Bool)
    (b : Book) : Bool :=
  let H := hayOf normalize b
  match mode with
  | SearchMode.allMode => toks.all (fun tok => subStrL tok.data H.data)
  | SearchMode.prefixMode =>
    toks.any (fun tok =>
      prefixOfL tok.data H.data || prefixOfL tok.data (pyLowerStr b.title).data)
  | SearchMode.anyMode => toks.any (fun tok => subStrL tok.data H.data)

/-- The `due_before` post-filter (lines 211-217).  The whole filter —
including the parse of each record's `due_date` — runs inside one
`try`: an unparseable `due_before` leaves `res` untouched, and a
record with a non-empty unparseable `due_date` aborts the
comprehension, also leaving `res` untouched. -/
def dueBeforeFilter (db : String) (res : List Book) : List Book :=
  match parseDate db with
  | none => res
  | some lim =>
    if res.any (fun b => match b.due_date with
        | some s => !(s == "") && (parseDate s).isNone
        | none => false) then res
    else res.filter (fun b => match b.due_date with
      | some s =>
        if s = "" then false
        else match parseDate s with
          | some dd => decide (rataDie dd < rataDie lim)
          | none => false
      | none => false)

/-- Function `search_books_adv` (lines 178-227). -/
def search_books_adv (books : List Book) (query : String) (mode : SearchMode)
    (regex : Bool) (normalize : Bool) (available : Option Bool)
    (borrower : Option String) (due_before : Option String) (order_by : OrderBy) :
    Except PyExc (List Book) :=
  if pyStrip query = "" then Except.ok []
  else
    let q_raw := pyStrip query
    let step1 : Except PyExc (List Book) :=
      if regex then
        match reCompile (if normalize then norm_key (some q_raw) else q_raw) with
        | Except.error e => Except.error e
        | Except.ok pat =>
          Except.ok (books.filter (fun b => reSearchCI pat (hayOf normalize b)))
      else
        let toks := (wordsL (if normalize then norm_key (some q_raw) else
          pyLowerStr q_raw).data).map String.mk
        Except.ok (books.filter (tokenMatch mode toks normalize))
    match step1 with
    | Except.error e => Except.error e
    | Except.ok res0 =>
      let res1 := match available with
        | none => res0
        | some av => res0.filter (fun b => b.available == av)
      let res2 := match borrower with
        | none => res1
        | some brw =>
          if brw = "" then res1
          else res1.filter (fun b => norm_key b.borrower == norm_key (some brw))
      let res3 := match due_before with
        | none => res2
        | some db => if db = "" then res2 else dueBeforeFilter db res2
      Except.ok (sortForOrder order_by res3)

/-! ## Calendar lemmas: `addDays` really advances the ordinal -/

theorem daysBeforeMonth_succ (y m : Nat) (h1 : 1 ≤ m) (h2 : m ≤ 11) :
    daysBeforeMonth y (m + 1) = daysBeforeMonth y m + daysInMonth y m := by
  interval_cases m <;>
    simp only [daysBeforeMonth, daysInMonth] <;>
    cases h : isLeap y <;> simp [h]

set_option maxHeartbeats 1000000 in
theorem daysBeforeYear_succ (y : Nat) (hy : 1 ≤ y) :
    daysBeforeYear (y + 1) =
      daysBeforeYear y + 365 + (if isLeap y then 1 else 0) := by
  have h4 : y % 4 = 0 ∨ y % 4 ≠ 0 := by omega
  unfold daysBeforeYear
  by_cases h : isLeap y
  · simp only [if_pos h]
    simp only [isLeap, Bool.and_eq_true, beq_iff_eq, Bool.or_eq_true, bne_iff_ne,
      ne_eq] at h
    omega
  · simp only [if_neg h]
    simp only [isLeap, Bool.and_eq_true, beq_iff_eq, Bool.or_eq_true, bne_iff_ne,
      ne_eq, not_and, not_or, not_not] at h
    omega

theorem daysInMonth_pos (y m : Nat) : 1 ≤ daysInMonth y m := by
  unfold daysInMonth
  split <;> try omega
  split <;> omega

theorem rataDie_nextDay (d : Date) (h : d.Valid) :
    rataDie (nextDay d) = rataDie d + 1 := by
  obtain ⟨y, m, dd⟩ := d
  obtain ⟨hy, hm1, hm2, hd1, hd2⟩ := h
  simp only [Date.Valid] at hy hm1 hm2 hd1 hd2
  unfold nextDay
  by_cases hlt : dd < daysInMonth y m
  · simp only [if_pos hlt, rataDie]
    omega
  · simp only [if_neg hlt]
    have hde : dd = daysInMonth y m := by
      simp only at hd2 hlt
      omega
    by_cases hm : m < 12
    · simp only [if_pos hm, rataDie]
      have := daysBeforeMonth_succ y m hm1 (by omega)
      omega
    · simp only [if_neg hm, rataDie]
      have hm12 : m = 12 := by omega
      have h31 : daysInMonth y 12 = 31 := rfl
      have h334 : daysBeforeMonth y 12 = 334 + (if isLeap y then 1 else 0) := rfl
      have hys := daysBeforeYear_succ y hy
      have h0 : daysBeforeMonth (y + 1) 1 = 0 := rfl
      subst hm12
      by_cases hl : isLeap y <;> simp only [hl, if_pos, if_neg, if_true,
        if_false] at h334 hys <;> omega

theorem nextDay_valid (d : Date) (h : d.Valid) : (nextDay d).Valid := by
  obtain ⟨y, m, dd⟩ := d
  obtain ⟨hy, hm1, hm2, hd1, hd2⟩ := h
  unfold nextDay
  by_cases hlt : dd < daysInMonth y m
  · simp only [if_pos hlt]
    exact ⟨hy, hm1, hm2, by simp only; omega, by simp only at hlt ⊢; omega⟩
  · simp only [if_neg hlt]
    by_cases hm : m < 12
    · simp only [if_pos hm]
      exact ⟨hy, by simp only at hm1 ⊢; omega, by simp only at hm ⊢; omega,
        by simp only; omega, daysInMonth_pos y (m + 1)⟩
    · simp only [if_neg hm]
      exact ⟨by simp only at hy ⊢; omega, by simp only; omega,
        by simp only; omega, by simp only; omega, daysInMonth_pos (y + 1) 1⟩

theorem addDays_valid (d : Date) (n : Nat) (h : d.Valid) : (addDays d n).Valid := by
  induction n with
  | zero => exact h
  | succ n ih => exact nextDay_valid _ ih

theorem rataDie_addDays (d : Date) (n : Nat) (h : d.Valid) :
    rataDie (addDays d n) = rataDie d + n := by
  induction n with
  | zero => rfl
  | succ n ih =>
    have := rataDie_nextDay (addDays d n) (addDays_valid d n h)
    simp only [addDays]
    omega

theorem parseDate_valid (s : String) (d : Date) (h : parseDate s = some d) :
    d.Valid := by
  unfold parseDate at h
  split at h
  · split at h
    · split at h
      · rename_i hok
        injection h with h
        subst h
        exact ⟨hok.1, hok.2.1, hok.2.2.1, hok.2.2.2.1, hok.2.2.2.2⟩
      · exact absurd h (by simp)
    · exact absurd h (by simp)
  · exact absurd h (by simp)

theorem parseDate_empty : parseDate "" = none := rfl

theorem parseDate_ne_empty (s : String) (d : Date) (h : parseDate s = some d) :
    s ≠ "" := by
  intro he
  rw [he, parseDate_empty] at h
  exact Option.noConfusion h

/-! ## Generic facts about the id-lookup scans and the max-id fold -/

theorem String.eq_of_data_eq (s t : String) (h : s.data = t.data) : s = t := by
  cases s
  cases t
  exact congrArg String.mk h

theorem borrowScan_append (pre rest : List Book) (bid : Int) (u : String)
    (days : Int) (today : Date) (h : ∀ b ∈ pre, b.id ≠ bid) :
    borrowScan (pre ++ rest) bid u days today =
      ((borrowScan rest bid u days today).1,
        pre ++ (borrowScan rest bid u days today).2) := by
  induction pre with
  | nil => simp
  | cons b pre ih =>
    have hb : b.id ≠ bid := h b (List.mem_cons_self b pre)
    simp only [List.cons_append, borrowScan, if_neg hb, List.append_eq,
      ih (fun x hx => h x (List.mem_cons_of_mem b hx))]

theorem returnScan_append (pre rest : List Book) (bid : Int) (now : Date)
    (h : ∀ b ∈ pre, b.id ≠ bid) :
    returnScan (pre ++ rest) bid now =
      ((returnScan rest bid now).1, pre ++ (returnScan rest bid now).2) := by
  induction pre with
  | nil => simp
  | cons b pre ih =>
    have hb : b.id ≠ bid := h b (List.mem_cons_self b pre)
    simp only [List.cons_append, returnScan, if_neg hb, List.append_eq,
      ih (fun x hx => h x (List.mem_cons_of_mem b hx))]

theorem renewScan_append (pre rest : List Book) (bid : Int)
    (extra_days max_total_days : Int) (now : PyNow)
    (h : ∀ b ∈ pre, b.id ≠ bid) :
    renewScan (pre ++ rest) bid extra_days max_total_days now =
      ((renewScan rest bid extra_days max_total_days now).1,
        pre ++ (renewScan rest bid extra_days max_total_days now).2) := by
  induction pre with
  | nil => simp
  | cons b pre ih =>
    have hb : b.id ≠ bid := h b (List.mem_cons_self b pre)
    simp only [List.cons_append, renewScan, if_neg hb, List.append_eq,
      ih (fun x hx => h x (List.mem_cons_of_mem b hx))]

theorem foldl_maxId_init_le (l : List Book) (init : Int) :
    init ≤ l.foldl (fun m x => max m x.id) init := by
  induction l generalizing init with
  | nil => exact le_refl _
  | cons b l ih => exact le_trans (le_max_left _ _) (ih _)

theorem le_foldl_maxId (l : List Book) (b : Book) (init : Int) (hb : b ∈ l) :
    b.id ≤ l.foldl (fun m x => max m x.id) init := by
  induction l generalizing init with
  | nil => cases hb
  | cons x l ih =>
    rcases List.mem_cons.mp hb with h | h
    · subst h
      exact le_trans (le_max_right init b.id) (foldl_maxId_init_le l _)
    · exact ih _ h

/-! ## Distribution of the normalization pipeline over concatenation -/

theorem stripAccentsL_append (a b : List Char) :
    stripAccentsL (a ++ b) = stripAccentsL a ++ stripAccentsL b := by
  simp [stripAccentsL, List.filter_append]

theorem trLowerL_append (a b : List Char) :
    trLowerL (a ++ b) = trLowerL a ++ trLowerL b := by
  simp [trLowerL]

/-! ## Claim C4 -/

/-- C4, counterexample: the claim predicts `normalizeKey` maps a
string containing `İ` to the corresponding string with `i` at that
position, but `norm_key "İ" = "ı"`: NFKD decomposes `İ` into
`I` + combining dot, `strip_accents` drops the dot, and the Turkish
fold then maps the surviving plain `I` to dotless `ı`. -/
theorem norm_key_dotted_I_cex :
    norm_key (some "İ") = "ı" ∧ ("ı" : String) ≠ "i" :=
  ⟨rfl, by decide⟩

/-- C4 (amended): `norm_key` trims, then strips diacritics
(decomposition plus dropping combining marks), then applies the
Turkish-convention lowercasing — and because the accent-stripping
pass rewrites `İ` to plain `I` before the Turkish fold runs, a string
containing `İ` comes out with `ı` (not `i`) at that position. -/
theorem norm_key_dotted_I_folds_to_dotless (s t : String) :
    norm_key (some (s ++ "İ" ++ t)) =
      tr_lower (strip_accents (pyStrip (s ++ "İ" ++ t))) ∧
    tr_lower (strip_accents (s ++ "İ" ++ t)) =
      tr_lower (strip_accents s) ++ "ı" ++ tr_lower (strip_accents t) := by
  constructor
  · have hne : s ++ "İ" ++ t ≠ "" := by
      intro h
      have hd : (s ++ "İ" ++ t).data = ([] : List Char) := by rw [h]
      simp [String.data_append] at hd
    simp [norm_key, hne]
  · apply String.eq_of_data_eq
    simp only [tr_lower, strip_accents, String.data_append]
    rw [stripAccentsL_append, stripAccentsL_append, trLowerL_append, trLowerL_append]
    rfl

/-! ## Claim C1 -/

/-- C1, counterexample: with `regex=true` and the malformed pattern
`"("`, `search_books_adv` surfaces `re.error` from the unguarded
`re.compile` call (line 192), not `ValidationError` as the claim
states. -/
theorem search_invalid_regex_not_validation_cex :
    search_books_adv [] "(" SearchMode.anyMode true true none none none
        OrderBy.byTitle = Except.error PyExc.reError ∧
      PyExc.reError ≠ PyExc.validationError :=
  ⟨rfl, by decide⟩

/-- C1 (amended): for every collection, a `regex=true` search with a
non-blank query whose compiled pattern is malformed fails with the
raw pattern-compiler exception `re.error` — which is not
`ValidationError` — because line 192 calls `re.compile` with no
handler. -/
theorem search_invalid_regex_raises_re_error (books : List Book) (q : String)
    (mode : SearchMode) (n : Bool) (av : Option Bool) (bor : Option String)
    (db : Option String) (ob : OrderBy)
    (hq : pyStrip q ≠ "")
    (hbad : regexWellFormed
      (if n then norm_key (some (pyStrip q)) else pyStrip q) = false) :
    search_books_adv books q mode true n av bor db ob =
        Except.error PyExc.reError ∧
      PyExc.reError ≠ PyExc.validationError := by
  refine ⟨?_, by decide⟩
  unfold search_books_adv
  rw [if_neg hq]
  simp [reCompile, hbad]

theorem search_invalid_regex_raises_re_error_witness :
    search_books_adv [] "(" SearchMode.allMode true true none none none
        OrderBy.byDue = Except.error PyExc.reError ∧
      PyExc.reError ≠ PyExc.validationError :=
  search_invalid_regex_raises_re_error [] "(" SearchMode.allMode true none none
    none OrderBy.byDue (by decide) (by decide)

/-! ## Claim C10 -/

/-- C10: `borrow_book_safe` validates before it searches: a non-`int`
`book_id` raises `ValidationError` with the collection untouched (so
no `NotFoundError` and no mutation, whatever the collection), and the
`days > 0` and non-blank-username checks likewise fire before the id
scan. -/
theorem borrow_validation_precedes_lookup (books : List Book) (s u : String)
    (days : Int) (bid : Int) (today : Date) :
    borrow_book_safe books (PyArg.nonInt s) u days today =
        (Except.error PyExc.validationError, books) ∧
      (days ≤ 0 →
        borrow_book_safe books (PyArg.pyInt bid) u days today =
          (Except.error PyExc.validationError, books)) ∧
      (0 < days → pyStrip u = "" →
        borrow_book_safe books (PyArg.pyInt bid) u days today =
          (Except.error PyExc.validationError, books)) := by
  refine ⟨rfl, ?_, ?_⟩
  · intro h
    simp [borrow_book_safe, h]
  · intro h1 h2
    simp [borrow_book_safe, h2]

theorem borrow_validation_precedes_lookup_witness :
    borrow_book_safe [] (PyArg.nonInt "1") "ali" 14 ⟨2025, 1, 1⟩ =
      (Except.error PyExc.validationError, []) :=
  (borrow_validation_precedes_lookup [] "1" "ali" 14 7 ⟨2025, 1, 1⟩).1

/-- A concrete borrowed record with an unparseable due date (used by
the C9 witness). -/
def badDueBook : Book where
  id := 1
  title := "Dune"
  author := "Frank Herbert"
  available := false
  borrower := some "ali"
  due_date := some "not-a-date"
  borrowed_at := some "2025-01-01"
  created_at := "2025-01-01T10:00:00"
  waitlist := []

/-- A concrete available record with no due date (used by the C8
witness). -/
def availBook : Book where
  id := 3
  title := "1984"
  author := "George Orwell"
  available := true
  borrower := none
  due_date := none
  borrowed_at := none
  created_at := "2025-01-01T10:00:00"
  waitlist := []

/-! ## Claim C9 -/

/-- C9: `renew_book` parses a borrowed record's non-empty `due_date`
with an unguarded `datetime.strptime` (line 306), so an unparseable
date surfaces a raw `ValueError` — outside the library's own
`ValidationError`/`DuplicateBookError`/`NotFoundError` kinds — rather
than a `false` return or a skip. -/
theorem renew_unparseable_due_raises_valueError (pre post : List Book) (r : Book)
    (s : String) (extra_days max_total_days : Int) (now : PyNow)
    (hfirst : ∀ b ∈ pre, b.id ≠ r.id)
    (hna : r.available = false)
    (hdd : r.due_date = some s) (hs : s ≠ "") (hbad : parseDate s = none)
    (hex : 0 < extra_days) :
    renew_book (pre ++ r :: post) r.id extra_days max_total_days now =
        (Except.error PyExc.valueError, pre ++ r :: post) ∧
      PyExc.valueError ≠ PyExc.validationError ∧
      PyExc.valueError ≠ PyExc.duplicateBookError ∧
      PyExc.valueError ≠ PyExc.notFoundError := by
  refine ⟨?_, by decide, by decide, by decide⟩
  unfold renew_book
  rw [if_neg (by omega), renewScan_append pre (r :: post) r.id _ _ _ hfirst]
  simp [renewScan, hna, hdd, hs, hbad]

theorem renew_unparseable_due_raises_valueError_witness :
    renew_book [badDueBook] 1 7 28
        ⟨⟨2025, 1, 10⟩, true⟩ =
      (Except.error PyExc.valueError,
        [badDueBook]) :=
  (renew_unparseable_due_raises_valueError [] []
    badDueBook
    "not-a-date" 7 28 ⟨⟨2025, 1, 10⟩, true⟩
    (by simp) rfl rfl (by decide) (by decide) (by decide)).1

/-! ## Claim C8 -/

/-- C8: returning a record that is already available (no `due_date`)
raises nothing and reports success with zero delay: the delay
computation sees an absent `due_date` and stays 0, and the function
returns `(true, 0)`. -/
theorem return_idempotent_on_available (pre post : List Book) (r : Book)
    (now : Date) (hfirst : ∀ b ∈ pre, b.id ≠ r.id)
    (_hav : r.available = true) (hdd : r.due_date = none) :
    (return_book_with_delay (pre ++ r :: post) r.id now).1 =
      Except.ok (true, 0) := by
  unfold return_book_with_delay
  rw [returnScan_append pre (r :: post) r.id now hfirst]
  simp [returnScan, returnDelay, hdd]

theorem return_idempotent_on_available_witness :
    (return_book_with_delay [availBook] 3 ⟨2025, 2, 1⟩).1 = Except.ok (true, 0) :=
  return_idempotent_on_available [] []
    availBook
    ⟨2025, 2, 1⟩ (by simp) rfl rfl

/-! ## Claim C2 -/

/-- C2: renewing a borrowed, not-yet-overdue record is a no-op
returning `false` exactly when `14 + extra_days > max_total_days` —
the cap uses the fixed base loan length 14, never the loan's actual
length — and otherwise returns `true` advancing `due_date` by exactly
`extra_days` calendar days (the new due date's ordinal exceeds the old
one by `extra_days`). -/
theorem renew_cap_and_advance (pre post : List Book) (r : Book) (s : String)
    (d : Date) (extra_days max_total_days : Int) (now : PyNow)
    (hfirst : ∀ b ∈ pre, b.id ≠ r.id)
    (hna : r.available = false) (hdd : r.due_date = some s)
    (hparse : parseDate s = some d) (hnp : dueLtNow d now = false)
    (hex : 0 < extra_days) :
    (14 + extra_days > max_total_days →
      renew_book (pre ++ r :: post) r.id extra_days max_total_days now =
        (Except.ok false, pre ++ r :: post)) ∧
    (14 + extra_days ≤ max_total_days →
      renew_book (pre ++ r :: post) r.id extra_days max_total_days now =
        (Except.ok true,
          pre ++ { r with
            due_date := some (dateToStr (addDays d extra_days.toNat)) } :: post) ∧
      rataDie (addDays d extra_days.toNat) = rataDie d + extra_days.toNat) := by
  have hs : s ≠ "" := parseDate_ne_empty s d hparse
  constructor
  · intro hcap
    unfold renew_book
    rw [if_neg (by omega), renewScan_append pre (r :: post) r.id _ _ _ hfirst]
    simp [renewScan, hna, hdd, hs, hparse, hnp, hcap]
  · intro hcap
    refine ⟨?_, rataDie_addDays d extra_days.toNat (parseDate_valid s d hparse)⟩
    unfold renew_book
    rw [if_neg (by omega), renewScan_append pre (r :: post) r.id _ _ _ hfirst]
    simp [renewScan, hna, hdd, hs, hparse, hnp,
      show ¬(14 + extra_days > max_total_days) by omega]

/-- A concrete borrowed record due 2025-06-10 (used by the C2
witness). -/
def dueJun10Book : Book where
  id := 2
  title := "Kürk Mantolu Madonna"
  author := "Sabahattin Ali"
  available := false
  borrower := some "ayşe"
  due_date := some "2025-06-10"
  borrowed_at := some "2025-05-27"
  created_at := "2025-01-01T10:00:00"
  waitlist := []

theorem renew_cap_and_advance_witness :
    renew_book [dueJun10Book] 2 7 28 ⟨⟨2025, 6, 1⟩, true⟩ =
      (Except.ok true,
        [{ dueJun10Book with due_date := some "2025-06-17" }]) :=
  ((renew_cap_and_advance [] [] dueJun10Book "2025-06-10" ⟨2025, 6, 10⟩ 7 28
      ⟨⟨2025, 6, 1⟩, true⟩ (by simp) rfl rfl (by decide) (by decide)
      (by decide)).2 (by decide)).1

/-! ## Claim C6 -/

/-- C6: when `add_book_pro` succeeds on a collection of
positive-id records, the new record's id is `max(existing ids) + 1`
(1 on an empty collection), hence strictly greater than every prior
id, and its stored title/author are the Turkish title-cased forms of
the trimmed inputs. -/
theorem add_assigns_fresh_max_id (books : List Book) (t a : String) (dup : Bool)
    (ca : String) (nb : Book) (books1 : List Book)
    (hpos : ∀ b ∈ books, 0 < b.id)
    (h : add_book_pro books t a dup ca = (Except.ok nb, books1)) :
    (∀ b ∈ books, b.id < nb.id) ∧
      nb.id = (if books = [] then 1 else maxIdFold books + 1) ∧
      nb.title = titlecase_tr (pyStrip t) ∧
      nb.author = titlecase_tr (pyStrip a) := by
  simp only [add_book_pro] at h
  split at h
  · simp at h
  · split at h
    · simp at h
    · have hnb : nb = mkBook (if books = [] then 1 else maxIdFold books + 1)
          (titlecase_tr (pyStrip t)) (titlecase_tr (pyStrip a)) ca := by
        have hfst := congrArg Prod.fst h
        simp at hfst
        exact hfst.symm
      refine ⟨?_, by rw [hnb]; rfl, by rw [hnb]; rfl, by rw [hnb]; rfl⟩
      intro b hb
      rw [hnb]
      show b.id < (if books = [] then 1 else maxIdFold books + 1)
      have hne : books ≠ [] := by
        cases books with
        | nil => cases hb
        | cons x l => simp
      rw [if_neg hne]
      have := le_foldl_maxId books b 0 hb
      unfold maxIdFold
      omega

theorem add_assigns_fresh_max_id_witness :
    (∀ b ∈ [availBook], b.id < 4) ∧
      (4 : Int) = (if ([availBook] : List Book) = [] then 1
        else maxIdFold [availBook] + 1) ∧
      titlecase_tr (pyStrip " dune  ") = titlecase_tr (pyStrip " dune  ") ∧
      titlecase_tr (pyStrip "frank herbert") =
        titlecase_tr (pyStrip "frank herbert") := by
  have h := add_assigns_fresh_max_id [availBook] " dune  " "frank herbert" false
    "2025-02-02T09:00:00"
    (mkBook 4 "Dune" "Frank Herbert" "2025-02-02T09:00:00")
    ([availBook] ++ [mkBook 4 "Dune" "Frank Herbert" "2025-02-02T09:00:00"])
    (by decide) rfl
  exact ⟨h.1, h.2.1, rfl, rfl⟩

theorem any_append_singleton (l : List Book) (p : Book → Bool) (b : Book)
    (h : p b = true) : (l ++ [b]).any p = true := by
  rw [List.any_append, List.any_cons, List.any_nil, h]
  simp

/-! ## Claim C5 -/

/-- C5: duplicate detection is case-insensitive (and
accent-insensitive): once `"Dune"/"Frank Herbert"` has been added
successfully, adding `"dune"/"Frank Herbert"` with duplicate checking
enabled fails with `DuplicateBookError` and leaves the collection
unchanged, because the normalized (title, author) keys coincide. -/
theorem add_duplicate_case_insensitive (books books1 : List Book) (d1 : Bool)
    (ca1 ca2 : String) (nb : Book)
    (h : add_book_pro books "Dune" "Frank Herbert" d1 ca1 = (Except.ok nb, books1)) :
    add_book_pro books1 "dune" "Frank Herbert" true ca2 =
      (Except.error PyExc.duplicateBookError, books1) := by
  simp only [add_book_pro] at h
  rw [if_neg (by decide)] at h
  have hb1 : books1 = books ++ [mkBook (if books = [] then 1
      else maxIdFold books + 1) "Dune" "Frank Herbert" ca1] := by
    split at h
    · simp at h
    · exact (congrArg Prod.snd h).symm
  subst hb1
  simp only [add_book_pro]
  rw [if_neg (by decide), if_pos]
  rw [Bool.true_and]
  exact any_append_singleton _ _ _ rfl

theorem add_duplicate_case_insensitive_witness :
    add_book_pro [mkBook 1 "Dune" "Frank Herbert" "2025-01-01T10:00:00"] "dune"
        "Frank Herbert" true "2025-01-02T10:00:00" =
      (Except.error PyExc.duplicateBookError,
        [mkBook 1 "Dune" "Frank Herbert" "2025-01-01T10:00:00"]) :=
  add_duplicate_case_insensitive [] [mkBook 1 "Dune" "Frank Herbert"
    "2025-01-01T10:00:00"] false "2025-01-01T10:00:00" "2025-01-02T10:00:00"
    (mkBook 1 "Dune" "Frank Herbert" "2025-01-01T10:00:00") rfl

/-! ## Claim C7 -/

/-- The overdue criterion of the claim: the record is borrowed
(`available == false`), its `due_date` is a non-empty parseable
`YYYY-MM-DD` string, and that date is strictly before the reference
date `td`. -/
def isOverdueAt (td : Date) (b : Book) : Bool :=
  !b.available &&
    (match b.due_date with
     | some s =>
       if s = "" then false
       else match parseDate s with
         | some due => decide (rataDie due < rataDie td)
         | none => false
     | none => false)

theorem overdueLoop_cons_fst (b : Book) (rest : List Book) (td : Date)
    (base : ℚ) (now : Date) :
    (overdueLoop (b :: rest) td base now).1 =
      if isOverdueAt td b then b :: (overdueLoop rest td base now).1
      else (overdueLoop rest td base now).1 := by
  obtain ⟨bid, bt, ba, bav, bb, bdd, bba, bc, bwl⟩ := b
  simp only [overdueLoop, isOverdueAt]
  cases bav
  · cases bdd with
    | none => simp
    | some s =>
      by_cases hs : s = ""
      · simp [hs]
      · cases hp : parseDate s with
        | none => simp [hs, hp]
        | some due =>
          by_cases hlt : rataDie due < rataDie td
          · simp [hs, hp, hlt]
          · simp [hs, hp, hlt]
  · simp

theorem overdueLoop_fst (books : List Book) (td : Date) (base : ℚ) (now : Date) :
    (overdueLoop books td base now).1 = books.filter (isOverdueAt td) := by
  induction books with
  | nil => rfl
  | cons b rest ih =>
    rw [overdueLoop_cons_fst, List.filter_cons, ih]

/-- C7: for a parseable reference date, `list_overdue_stats` returns
exactly the records satisfying `isOverdueAt` — borrowed, with a
non-empty parseable due date strictly before the reference date — in
collection order; records with unparseable due dates are skipped
rather than raising, and the reported count is the length of that
list. -/
theorem list_overdue_filter_characterization (books : List Book) (ts : String)
    (td : Date) (base : ℚ) (now : Date) (h : parseDate ts = some td) :
    (list_overdue_stats books (some ts) base now).1 =
        books.filter (isOverdueAt td) ∧
      (list_overdue_stats books (some ts) base now).2.1 =
        (books.filter (isOverdueAt td)).length := by
  unfold list_overdue_stats
  simp only [h, Option.getD_some]
  exact ⟨overdueLoop_fst books td base now,
    congrArg List.length (overdueLoop_fst books td base now)⟩

/-- A concrete borrowed record due 2025-01-05 (used by the C7
witness). -/
def overdueJan5Book : Book where
  id := 9
  title := "1984"
  author := "George Orwell"
  available := false
  borrower := some "zey"
  due_date := some "2025-01-05"
  borrowed_at := some "2024-12-22"
  created_at := "2024-12-01T10:00:00"
  waitlist := []

theorem list_overdue_filter_characterization_witness :
    (list_overdue_stats [badDueBook, overdueJan5Book] (some "2025-02-01") 1
        ⟨2025, 2, 3⟩).1 =
      List.filter (isOverdueAt ⟨2025, 2, 1⟩) [badDueBook, overdueJan5Book] :=
  (list_overdue_filter_characterization [badDueBook, overdueJan5Book]
    "2025-02-01" ⟨2025, 2, 1⟩ 1 ⟨2025, 2, 3⟩ (by decide)).1

/-! ## Claim C3 -/

/-- The head-match step of `returnScan`. -/
theorem returnScan_cons (b : Book) (rest : List Book) (bid : Int) (now : Date)
    (h : b.id = bid) :
    returnScan (b :: rest) bid now =
      (Except.ok (true, returnDelay b now),
        assign_next_waiter { b with
          available := true
          borrower := none
          due_date := none
          borrowed_at := none } now :: rest) := by
  simp [returnScan, h]

/-- C3: a successful borrow followed by return restores the record
exactly to its pre-borrow state (`available = true`,
borrower/borrowed_at/due_date absent, id/created_at/waitlist
untouched) — unless the waitlist was non-empty, in which case the
same return call pops its head and re-borrows the record to that
user with a fresh `borrowed_at` and a 14-day due date, so the record
is unavailable again when return yields to the caller. -/
theorem borrow_return_roundtrip (pre post : List Book) (r : Book) (u : String)
    (days : Int) (today retd : Date)
    (hfirst : ∀ b ∈ pre, b.id ≠ r.id)
    (hav : r.available = true) (hbor : r.borrower = none)
    (hba : r.borrowed_at = none) (hdd : r.due_date = none)
    (hdays : 0 < days) (hu : pyStrip u ≠ "") :
    (borrow_book_safe (pre ++ r :: post) (PyArg.pyInt r.id) u days today).1 =
        Except.ok true ∧
      ∃ dl : Nat,
        return_book_with_delay
            (borrow_book_safe (pre ++ r :: post) (PyArg.pyInt r.id) u days today).2
            r.id retd =
          (Except.ok (true, dl),
            pre ++ (match r.waitlist with
              | [] => r
              | w :: ws =>
                { r with
                  available := false
                  borrower := some w
                  borrowed_at := some (dateToStr retd)
                  due_date := some (dateToStr (addDays retd 14))
                  waitlist := ws }) :: post) := by
  obtain ⟨rid, rt, rau, rav, rb, rd, rba, rc, rwl⟩ := r
  dsimp only at hav hbor hba hdd hfirst ⊢
  subst hav
  subst hbor
  subst hba
  subst hdd
  have hb : borrow_book_safe
      (pre ++ (⟨rid, rt, rau, true, none, none, none, rc, rwl⟩ : Book) :: post)
      (PyArg.pyInt rid) u days today =
      (Except.ok true,
        pre ++ (⟨rid, rt, rau, false, some (pyStrip u),
          some (dateToStr (addDays today days.toNat)), some (dateToStr today),
          rc, rwl⟩ : Book) :: post) := by
    simp only [borrow_book_safe]
    rw [if_neg (by omega), if_neg hu,
      borrowScan_append pre _ rid u days today hfirst]
    simp [borrowScan]
  rw [hb]
  refine ⟨rfl, ?_⟩
  unfold return_book_with_delay
  rw [returnScan_append pre _ rid retd hfirst, returnScan_cons _ post rid retd rfl]
  cases rwl with
  | nil => exact ⟨_, rfl⟩
  | cons w ws => exact ⟨_, rfl⟩

theorem borrow_return_roundtrip_witness :
    (borrow_book_safe [availBook] (PyArg.pyInt 3) "ali" 7 ⟨2025, 3, 1⟩).1 =
        Except.ok true ∧
      ∃ dl : Nat,
        return_book_with_delay
            (borrow_book_safe [availBook] (PyArg.pyInt 3) "ali" 7 ⟨2025, 3, 1⟩).2
            3 ⟨2025, 3, 5⟩ =
          (Except.ok (true, dl), [availBook]) :=
  borrow_return_roundtrip [] [] availBook "ali" 7 ⟨2025, 3, 1⟩ ⟨2025, 3, 5⟩
    (by simp) rfl rfl rfl rfl (by decide) (by decide)

end LibraryPro
